import Mathlib

/-!
Verification development for the Kuaishou downloader's resource-resolution core
(`src/server/routes.ts`).  Strings are modelled as `List Char`; each JavaScript
regular expression used by the extraction cascade is translated into an
executable scanner with the same matching semantics (leftmost match, greedy
character classes with backtracking, case-insensitive flags where present).
JavaScript's dynamically typed locals are modelled by a `JsVal` type with JS
truthiness; runtime type errors and the non-terminating `while`/`exec` loops
are made explicit in the result type of the extraction function.
-/

namespace Kuaishou

/-- Character sequences; the model of JavaScript strings. -/
abbrev Chars := List Char

/-- The double-quote character. -/
def dq : Char := Char.ofNat 34

/-- The single-quote character. -/
def sq : Char := Char.ofNat 39

/-- Lower-case a character (for the `i` regex flag). -/
def lower (c : Char) : Char := c.toLower

/-- JavaScript whitespace as used by the regex class `\s` and by trim
(restricted to the ASCII whitespace characters). -/
def isWs (c : Char) : Bool :=
  c == ' ' || c == '\t' || c == '\n' || c == '\r' || c == '\x0b' || c == '\x0c'

/-- Membership in the regex class `["']`. -/
def isQuote (c : Char) : Bool := c == dq || c == sq

/-- Case-insensitively strip a literal pattern from the front of the input,
returning the rest. -/
def stripCI : Chars → Chars → Option Chars
  | [], s => some s
  | _ :: _, [] => none
  | p :: ps, c :: cs => if lower c == lower p then stripCI ps cs else none

/-- Case-insensitively strip a literal pattern from the front of the input,
returning the consumed characters (with original case) and the rest. -/
def stripCIKeep : Chars → Chars → Option (Chars × Chars)
  | [], s => some ([], s)
  | _ :: _, [] => none
  | p :: ps, c :: cs =>
    if lower c == lower p then
      match stripCIKeep ps cs with
      | some (k, r) => some (c :: k, r)
      | none => none
    else none

/-- Does the input start (case-insensitively) with the pattern? -/
def startsWithCI (p : Chars) (s : Chars) : Bool := (stripCI p s).isSome

/-- Does the input start (case-sensitively) with the pattern? -/
def startsWithCS : Chars → Chars → Bool
  | [], _ => true
  | _ :: _, [] => false
  | p :: ps, c :: cs => p == c && startsWithCS ps cs

/-- JavaScript `String.prototype.includes` (case-sensitive substring test). -/
def jsIncludes (p : Chars) : Chars → Bool
  | [] => p.isEmpty
  | c :: cs => startsWithCS p (c :: cs) || jsIncludes p cs

/-- Case-insensitive substring occurrence test. -/
def hasSubCI (p : Chars) : Chars → Bool
  | [] => p.isEmpty
  | c :: cs => startsWithCI p (c :: cs) || hasSubCI p cs

/-- Try a matcher at every start position from left to right; the leftmost
successful application wins (the semantics of a JS regex search). -/
def searchPos (m : Chars → Option α) : Chars → Option α
  | [] => m []
  | c :: cs =>
    match m (c :: cs) with
    | some r => some r
    | none => searchPos m cs

/-- Greedy backtracking over a run of class characters followed by a
continuation: the continuation is tried with the longest consumed run first
(the semantics of `[class]*` followed by further pattern material). -/
def greedyParts (k : Chars → Option α) : Chars → Chars → Option α
  | [], rest => k rest
  | c :: cs, rest =>
    match greedyParts k cs rest with
    | some r => some r
    | none => k (c :: cs ++ rest)

/-- Match `[class]*` greedily (with backtracking) followed by a continuation. -/
def greedyCls (p : Char → Bool) (k : Chars → Option α) (s : Chars) : Option α :=
  let (run, rest) := s.span p
  greedyParts k run rest

/-- JavaScript `String.prototype.trim` on the modelled whitespace set. -/
def jsTrim (s : Chars) : Chars :=
  ((s.dropWhile isWs).reverse.dropWhile isWs).reverse

/-! ### Matchers for the individual regexes of the extraction cascade -/

/-- Matcher for `<title[^>]*>([^<]+)<\/title>` (flag `i`) at one position. -/
def titleTagAt (s : Chars) : Option Chars :=
  match stripCI "<title".data s with
  | none => none
  | some s1 =>
    let (_, s2) := s1.span (fun c => c != '>')
    match s2 with
    | [] => none
    | _ :: s3 =>
      let (cap, s4) := s3.span (fun c => c != '<')
      if cap.isEmpty then none
      else
        match stripCI "</title>".data s4 with
        | none => none
        | some _ => some cap

/-- First match of the page-title regex over the whole input. -/
def titleTagMatch (html : Chars) : Option Chars := searchPos titleTagAt html

/-- Matcher for the suffix-stripping regex `\s*[-|]\s*快手.*$` (flag `i`) at one
position; `.` does not match a newline and `$` is the very end of the input. -/
def titleSuffixAt (s : Chars) : Bool :=
  let (_, s1) := s.span isWs
  match s1 with
  | c :: s2 =>
    if c == '-' || c == '|' then
      let (_, s3) := s2.span isWs
      match stripCI "快手".data s3 with
      | some rest => rest.all (fun ch => ch != '\n')
      | none => false
    else false
  | [] => false

/-- `title.replace(/\s*[-|]\s*快手.*$/i, "")`: delete from the leftmost
position where the suffix pattern matches (the match always extends to the end
of the string). -/
def stripTitleSuffix : Chars → Chars
  | [] => []
  | c :: cs => if titleSuffixAt (c :: cs) then [] else c :: stripTitleSuffix cs

/-- Matcher for `content=["']([^"']+)["']` at one position. -/
def contentCapAt (s : Chars) : Option Chars :=
  match stripCI "content=".data s with
  | none => none
  | some s1 =>
    match s1 with
    | q :: s2 =>
      if isQuote q then
        let (cap, s3) := s2.span (fun c => !(isQuote c))
        if cap.isEmpty then none
        else if s3.isEmpty then none else some cap
      else none
    | [] => none

/-- Check for `property=["']NAME["']` at one position, where `nm` consumes the
name (possibly in several ways, longest-preferred). -/
def propCheckAt (nm : Chars → List Chars) (s : Chars) : Bool :=
  match stripCI "property=".data s with
  | none => false
  | some s1 =>
    match s1 with
    | q :: s2 =>
      isQuote q &&
        (nm s2).any (fun s3 =>
          match s3 with
          | q2 :: _ => isQuote q2
          | [] => false)
    | [] => false

/-- Matcher for `property=["']NAME["'][^>]*content=["']([^"']+)["']` at one
position. -/
def ogForwardAt (nm : Chars → List Chars) (s : Chars) : Option Chars :=
  match stripCI "property=".data s with
  | none => none
  | some s1 =>
    match s1 with
    | q :: s2 =>
      if isQuote q then
        (nm s2).firstM (fun s3 =>
          match s3 with
          | q2 :: s4 =>
            if isQuote q2 then greedyCls (fun c => c != '>') contentCapAt s4
            else none
          | [] => none)
      else none
    | [] => none

/-- Matcher for `content=["']([^"']+)["'][^>]*property=["']NAME["']` at one
position. -/
def ogBackwardAt (nm : Chars → List Chars) (s : Chars) : Option Chars :=
  match stripCI "content=".data s with
  | none => none
  | some s1 =>
    match s1 with
    | q :: s2 =>
      if isQuote q then
        let (cap, s3) := s2.span (fun c => !(isQuote c))
        if cap.isEmpty then none
        else
          match s3 with
          | _ :: s4 =>
            greedyCls (fun c => c != '>')
              (fun r => if propCheckAt nm r then some cap else none) s4
          | [] => none
      else none
    | [] => none

/-- Model of `html.match(forward) || html.match(backward)` for an Open Graph
meta tag with the given property name. -/
def ogMatch (nm : Chars → List Chars) (html : Chars) : Option Chars :=
  match searchPos (ogForwardAt nm) html with
  | some cap => some cap
  | none => searchPos (ogBackwardAt nm) html

/-- Name consumer for the literal `og:title`. -/
def nmOgTitle (s : Chars) : List Chars :=
  match stripCI "og:title".data s with
  | some r => [r]
  | none => []

/-- Name consumer for the literal `og:image`. -/
def nmOgImage (s : Chars) : List Chars :=
  match stripCI "og:image".data s with
  | some r => [r]
  | none => []

/-- Name consumer for `og:video(?::url)?`: the optional group is greedy, so
the remainder with `:url` consumed is tried first. -/
def nmOgVideo (s : Chars) : List Chars :=
  match stripCI "og:video".data s with
  | none => []
  | some s1 =>
    match stripCI ":url".data s1 with
    | some s2 => [s2, s1]
    | none => [s1]

/-- First match of `property=["']og:title["']...` (both orders). -/
def ogTitleMatch (html : Chars) : Option Chars := ogMatch nmOgTitle html

/-- First match of `property=["']og:image["']...` (both orders). -/
def ogImageMatch (html : Chars) : Option Chars := ogMatch nmOgImage html

/-- First match of `property=["']og:video(?::url)?["']...` (both orders). -/
def ogVideoMatch (html : Chars) : Option Chars := ogMatch nmOgVideo html

/-- Matcher for `by\s+@?([^<"\n]+)` (flag `i`) at one position. -/
def byAuthorAt (s : Chars) : Option Chars :=
  match stripCI "by".data s with
  | none => none
  | some s1 =>
    let (ws, s2) := s1.span isWs
    if ws.isEmpty then none
    else
      let cls : Char → Bool := fun c => !(c == '<' || c == dq || c == '\n')
      match s2 with
      | c :: s3 =>
        if c == '@' then
          let (cap, _) := s3.span cls
          if cap.isEmpty then some [c] else some cap
        else
          let (cap, _) := s2.span cls
          if cap.isEmpty then none else some cap
      | [] => none

/-- Matcher for `"KEY"[:\s]*"([^"]+)"` (flag `i`) at one position. -/
def quotedKeyAt (key : Chars) (s : Chars) : Option Chars :=
  match s with
  | q :: s1 =>
    if q == dq then
      match stripCI key s1 with
      | some (q2 :: s3) =>
        if q2 == dq then
          let (_, s4) := s3.span (fun c => c == ':' || isWs c)
          match s4 with
          | q3 :: s5 =>
            if q3 == dq then
              let (cap, s6) := s5.span (fun c => c != dq)
              if cap.isEmpty then none
              else if s6.isEmpty then none else some cap
            else none
          | [] => none
        else none
      | _ => none
    else none
  | [] => none

/-- The author match chain: `by\s+@?name`, then the quoted keys `author`,
`userName`, `name` (each `html.match(...) || ...`). -/
def authorMatch (html : Chars) : Option Chars :=
  match searchPos byAuthorAt html with
  | some cap => some cap
  | none =>
    match searchPos (quotedKeyAt "author".data) html with
    | some cap => some cap
    | none =>
      match searchPos (quotedKeyAt "userName".data) html with
      | some cap => some cap
      | none => searchPos (quotedKeyAt "name".data) html

/-- Matcher for `KEY["']?\s*[:=]\s*["']([^"']+)["']` (flag `i`) at one
position. -/
def keyAt (key : Chars) (s : Chars) : Option Chars :=
  match stripCI key s with
  | none => none
  | some s1 =>
    let s2 := match s1 with
      | c :: rest => if isQuote c then rest else s1
      | [] => s1
    let (_, s3) := s2.span isWs
    match s3 with
    | c :: s4 =>
      if c == ':' || c == '=' then
        let (_, s5) := s4.span isWs
        match s5 with
        | q :: s6 =>
          if isQuote q then
            let (cap, s7) := s6.span (fun ch => !(isQuote ch))
            if cap.isEmpty then none
            else if s7.isEmpty then none else some cap
          else none
        | [] => none
      else none
    | [] => none

/-- First match of a key-style pattern over the whole input. -/
def keyCapture (key : String) (html : Chars) : Option Chars :=
  searchPos (keyAt key.data) html

/-- The negated class `[^"'\s]` of the quoted-URL regexes. -/
def urlCls (c : Char) : Bool := !(isQuote c || isWs c)

/-- Consume `https?:\/\/` (flag `i`), keeping the consumed characters. -/
def httpHead (s : Chars) : Option (Chars × Chars) :=
  match stripCIKeep "http".data s with
  | none => none
  | some (k1, r1) =>
    match r1 with
    | c :: r2 =>
      if lower c == 's' then
        match stripCIKeep "://".data r2 with
        | some (k2, r3) => some (k1 ++ c :: k2, r3)
        | none => none
      else
        match stripCIKeep "://".data (c :: r2) with
        | some (k2, r3) => some (k1 ++ k2, r3)
        | none => none
    | [] => none

/-- Matcher at one position for a quoted URL pattern
`["'](https?:\/\/RUN)["']` where `RUN` is a maximal run of `[^"'\s]` whose
shape is constrained by `check` (the extension / keyword requirements of the
individual regexes).  Returns the capture (scheme plus run) and the rest of
the input after the closing quote. -/
def quotedUrlAt (check : Chars → Bool) (s : Chars) : Option (Chars × Chars) :=
  match s with
  | q :: s1 =>
    if isQuote q then
      match httpHead s1 with
      | none => none
      | some (head, s2) =>
        let (run, s3) := s2.span urlCls
        match s3 with
        | q2 :: s4 =>
          if isQuote q2 && check run then some (head ++ run, s4) else none
        | [] => none
    else none
  | [] => none

/-- Extension requirement `[^"'\s]+\.EXT[^"'\s]*?`: the extension occurs in
the run at an index of at least one (case-insensitively). -/
def extHas (ext : Chars) (run : Chars) : Bool :=
  match run with
  | [] => false
  | _ :: cs => hasSubCI ext cs

/-- Run requirement of `[^"'\s]*video[^"'\s]+\.mp4[^"'\s]*?`: a `video`
occurrence followed, at least one character later, by `.mp4`. -/
def hasVideoMp4 : Chars → Bool
  | [] => false
  | c :: cs =>
    (startsWithCI "video".data (c :: cs) && extHas ".mp4".data ((c :: cs).drop 5)) ||
      hasVideoMp4 cs

/-- Existence of `.`(`jpg`|`jpeg`|`png`|`webp`) at some position of the run. -/
def hasDotImgExt : Chars → Bool
  | [] => false
  | c :: cs =>
    (c == '.' &&
      (startsWithCI "jpg".data cs || startsWithCI "jpeg".data cs ||
        startsWithCI "png".data cs || startsWithCI "webp".data cs)) ||
      hasDotImgExt cs

/-- Existence of a `cover`/`poster`/`thumb` keyword followed by an image
extension somewhere after it. -/
def hasImgSignature : Chars → Bool
  | [] => false
  | c :: cs =>
    (startsWithCI "cover".data (c :: cs) && hasDotImgExt ((c :: cs).drop 5)) ||
      (startsWithCI "poster".data (c :: cs) && hasDotImgExt ((c :: cs).drop 6)) ||
      (startsWithCI "thumb".data (c :: cs) && hasDotImgExt ((c :: cs).drop 5)) ||
      hasImgSignature cs

/-- Run requirement of the image URL regex
`[^"'\s]+(?:cover|poster|thumb)[^"'\s]*\.(?:jpg|jpeg|png|webp)[^"'\s]*?`. -/
def imgRunCheck (run : Chars) : Bool :=
  match run with
  | [] => false
  | _ :: cs => hasImgSignature cs

/-- Consume `type=["']application\/(?:ld\+)?json["']`, returning the rest. -/
def jsonTypeAt (s : Chars) : Option Chars :=
  let fin : Chars → Option Chars := fun r =>
    match stripCI "json".data r with
    | some (q :: r2) => if isQuote q then some r2 else none
    | _ => none
  match stripCI "type=".data s with
  | none => none
  | some (q :: s2) =>
    if isQuote q then
      match stripCI "application/".data s2 with
      | some s3 =>
        match stripCI "ld+".data s3 with
        | some s4 =>
          match fin s4 with
          | some r => some r
          | none => fin s3
        | none => fin s3
      | none => none
    else none
  | some [] => none

/-- Consume `[^>]*>` (forced: the class cannot contain `>`). -/
def gtClose (s : Chars) : Option Chars :=
  let (_, r) := s.span (fun c => c != '>')
  match r with
  | _ :: r1 => some r1
  | [] => none

/-- Lazy `([\s\S]*?)CLOSE`: capture up to the earliest occurrence of the
closing literal (case-insensitively), returning capture and rest. -/
def lazyUntilCI (close : Chars) : Chars → Option (Chars × Chars)
  | [] =>
    match stripCI close [] with
    | some r => some ([], r)
    | none => none
  | c :: cs =>
    match stripCI close (c :: cs) with
    | some r => some ([], r)
    | none =>
      match lazyUntilCI close cs with
      | some (cap, r) => some (c :: cap, r)
      | none => none

/-- Matcher at one position for the JSON script-block regex
`<script[^>]*type=["']application\/(?:ld\+)?json["'][^>]*>([\s\S]*?)<\/script>`
(flags `gi`), returning the captured block body and the rest of the input. -/
def scriptBlockAt (s : Chars) : Option (Chars × Chars) :=
  match stripCI "<script".data s with
  | none => none
  | some s1 =>
    greedyCls (fun c => c != '>')
      (fun r =>
        match jsonTypeAt r with
        | none => none
        | some r1 =>
          match gtClose r1 with
          | none => none
          | some r2 => lazyUntilCI "</script>".data r2) s1

/-- Iterate a global (`g`-flagged) regex: collect the successive matches, each
search resuming after the end of the previous match (the `lastIndex`
behaviour of `RegExp.exec` on a global regex). -/
def allMatchesGo (m : Chars → Option (Chars × Chars)) : Nat → Chars → List Chars
  | 0, _ => []
  | n + 1, s =>
    match searchPos m s with
    | none => []
    | some (cap, rest) => cap :: allMatchesGo m n rest

/-- All successive matches of a global regex over the input. -/
def allMatches (m : Chars → Option (Chars × Chars)) (s : Chars) : List Chars :=
  allMatchesGo m (s.length + 1) s

/-! ### JavaScript values, truthiness and `JSON.parse` -/

/-- Model of the dynamically typed JavaScript values flowing through the
extraction locals: strings, numbers (JSON numbers restricted to integers),
booleans, `null`, `undefined`, arrays and objects. -/
inductive JsVal where
  | str (s : Chars)
  | num (n : Int)
  | bool (b : Bool)
  | null
  | undefined
  | arr (xs : List JsVal)
  | obj (fields : List (Chars × JsVal))

/-- JavaScript truthiness of a modelled value. -/
def truthy : JsVal → Bool
  | .str s => !s.isEmpty
  | .num n => n != 0
  | .bool b => b
  | .null => false
  | .undefined => false
  | .arr _ => true
  | .obj _ => true

/-- JavaScript `x || y`. -/
def jsOr (x y : JsVal) : JsVal := if truthy x then x else y

/-- Property access `v.k` (and the optional-chaining read `v?.k`, which on the
values producible here agrees with it): `undefined` on non-objects and absent
keys; with duplicate keys the later entry wins, as in `JSON.parse`. -/
def JsVal.getField : JsVal → Chars → JsVal
  | .obj fs, k =>
    match fs.reverse.find? (fun p => p.1 == k) with
    | some p => p.2
    | none => .undefined
  | _, _ => .undefined

/-- Hexadecimal digit value, for `\uXXXX` string escapes. -/
def hexVal (c : Char) : Option Nat :=
  if '0' ≤ c && c ≤ '9' then some (c.toNat - 48)
  else if 'a' ≤ c && c ≤ 'f' then some (c.toNat - 87)
  else if 'A' ≤ c && c ≤ 'F' then some (c.toNat - 70)
  else none

/-- JSON whitespace. -/
def jsonWsC (c : Char) : Bool := c == ' ' || c == '\t' || c == '\n' || c == '\r'

/-- Parse the body of a JSON string after the opening quote, handling the
standard escapes, up to the closing quote. -/
def parseStringBody : Nat → Chars → Option (Chars × Chars)
  | 0, _ => none
  | _ + 1, [] => none
  | n + 1, c :: cs =>
    if c == dq then some ([], cs)
    else if c == '\\' then
      match cs with
      | e :: cs2 =>
        let cont : Char → Chars → Option (Chars × Chars) := fun ch rest =>
          match parseStringBody n rest with
          | some (out, r) => some (ch :: out, r)
          | none => none
        if e == dq then cont dq cs2
        else if e == '\\' then cont '\\' cs2
        else if e == '/' then cont '/' cs2
        else if e == 'n' then cont '\n' cs2
        else if e == 't' then cont '\t' cs2
        else if e == 'r' then cont '\r' cs2
        else if e == 'b' then cont '\x08' cs2
        else if e == 'f' then cont '\x0c' cs2
        else if e == 'u' then
          match cs2 with
          | h1 :: h2 :: h3 :: h4 :: cs3 =>
            match hexVal h1, hexVal h2, hexVal h3, hexVal h4 with
            | some a, some b, some c1, some d =>
              cont (Char.ofNat (((a * 16 + b) * 16 + c1) * 16 + d)) cs3
            | _, _, _, _ => none
          | _ => none
        else none
      | [] => none
    else if c.toNat < 32 then none
    else
      match parseStringBody n cs with
      | some (out, r) => some (c :: out, r)
      | none => none

/-- Parse a run of decimal digits. -/
def parseDigits (s : Chars) : Option (Nat × Chars) :=
  let (ds, rest) := s.span (fun c => '0' ≤ c && c ≤ '9')
  if ds.isEmpty then none
  else some (ds.foldl (fun acc c => acc * 10 + (c.toNat - 48)) 0, rest)

mutual

/-- Fuel-indexed parser for one JSON value (after no leading whitespace
handling; the callers strip whitespace).  Fractional and exponent number
forms are not modelled and fail the parse. -/
def parseVal : Nat → Chars → Option (JsVal × Chars)
  | 0, _ => none
  | n + 1, s =>
    let s := s.dropWhile jsonWsC
    match s with
    | [] => none
    | c :: cs =>
      if c == dq then
        match parseStringBody (cs.length + 1) cs with
        | some (str, rest) => some (.str str, rest)
        | none => none
      else if c == '\x7b' then
        let cs1 := cs.dropWhile jsonWsC
        match cs1 with
        | c1 :: cs2 =>
          if c1 == '\x7d' then some (.obj [], cs2)
          else parseMembers n (c1 :: cs2) []
        | [] => none
      else if c == '[' then
        let cs1 := cs.dropWhile jsonWsC
        match cs1 with
        | c1 :: cs2 =>
          if c1 == ']' then some (.arr [], cs2)
          else parseElems n (c1 :: cs2) []
        | [] => none
      else if c == 't' then
        if startsWithCS "rue".data cs then some (.bool true, cs.drop 3) else none
      else if c == 'f' then
        if startsWithCS "alse".data cs then some (.bool false, cs.drop 4) else none
      else if c == 'n' then
        if startsWithCS "ull".data cs then some (.null, cs.drop 3) else none
      else if c == '-' then
        match parseDigits cs with
        | some (v, rest) => some (.num (-(v : Int)), rest)
        | none => none
      else
        match parseDigits (c :: cs) with
        | some (v, rest) => some (.num (v : Int), rest)
        | none => none

/-- Parse the members of an object after `{` (first member pending). -/
def parseMembers : Nat → Chars → List (Chars × JsVal) → Option (JsVal × Chars)
  | 0, _, _ => none
  | n + 1, s, acc =>
    let s := s.dropWhile jsonWsC
    match s with
    | c :: cs =>
      if c == dq then
        match parseStringBody (cs.length + 1) cs with
        | some (key, r1) =>
          let r2 := r1.dropWhile jsonWsC
          match r2 with
          | ':' :: r3 =>
            match parseVal n r3 with
            | some (v, r4) =>
              let r5 := r4.dropWhile jsonWsC
              match r5 with
              | ',' :: r6 => parseMembers n r6 (acc ++ [(key, v)])
              | '\x7d' :: r6 => some (.obj (acc ++ [(key, v)]), r6)
              | _ => none
            | none => none
          | _ => none
        | none => none
      else none
    | [] => none

/-- Parse the elements of an array after `[` (first element pending). -/
def parseElems : Nat → Chars → List JsVal → Option (JsVal × Chars)
  | 0, _, _ => none
  | n + 1, s, acc =>
    match parseVal n s with
    | some (v, r1) =>
      let r2 := r1.dropWhile jsonWsC
      match r2 with
      | ',' :: r3 => parseElems n r3 (acc ++ [v])
      | ']' :: r3 => some (.arr (acc ++ [v]), r3)
      | _ => none
    | none => none

end

/-- Model of `JSON.parse`: parse one value with surrounding whitespace; any
trailing non-whitespace input is a parse failure. -/
def jsonParse (s : Chars) : Option JsVal :=
  match parseVal (2 * s.length + 8) s with
  | some (v, rest) => if (rest.dropWhile jsonWsC).isEmpty then some v else none
  | none => none

/-! ### The extraction cascade (`extractVideoInfoFromHtml`) -/

/-- The normalized media descriptor built by the extraction cascade; field
values keep the dynamic `JsVal` type of the JavaScript locals (`audioUrl` is
`undefined` when the JS object field is `undefined`). -/
structure VideoInfo where
  title : JsVal
  author : JsVal
  thumbnail : JsVal
  videoUrl : JsVal
  audioUrl : JsVal
  quality : JsVal
  fileSize : JsVal

/-- The mutable locals of the cascade at the point of the structured-data
scan. -/
structure CascadeVars where
  title : JsVal
  author : JsVal
  thumbnail : JsVal
  videoUrl : JsVal

/-- One guarded fill `if (cand) cur = cur || cand` of the structured-data
scan. -/
def fillField (cur cand : JsVal) : JsVal :=
  if truthy cand then jsOr cur cand else cur

/-- Processing of one embedded JSON script block: a parse failure leaves the
state unchanged (the `catch \x7b\x7d` around `JSON.parse`); otherwise the
recognized keys fill the still-empty fields. -/
def jsonBlockStep (st : CascadeVars) (block : Chars) : CascadeVars :=
  match jsonParse block with
  | none => st
  | some j =>
    { videoUrl := fillField st.videoUrl (j.getField "contentUrl".data),
      thumbnail := fillField st.thumbnail (j.getField "thumbnailUrl".data),
      title := fillField st.title (j.getField "name".data),
      author := fillField st.author ((j.getField "author".data).getField "name".data) }

/-- All embedded JSON script blocks of the page, in document order. -/
def scriptBlocks (html : Chars) : List Chars := allMatches scriptBlockAt html

/-- The title local after the `<title>` and `og:title` steps. -/
def titleStage (html : Chars) : JsVal :=
  let base : JsVal :=
    match titleTagMatch html with
    | some cap => .str (jsTrim (stripTitleSuffix cap))
    | none => .str []
  match ogTitleMatch html with
  | some cap => .str (jsTrim cap)
  | none => base

/-- The author local after the author match chain. -/
def authorStage (html : Chars) : JsVal :=
  match authorMatch html with
  | some cap => .str (jsTrim cap)
  | none => .str []

/-- The thumbnail local after the `og:image` step. -/
def thumbStage (html : Chars) : JsVal :=
  match ogImageMatch html with
  | some cap => .str cap
  | none => .str []

/-- The video-URL local after the `og:video` step. -/
def ogVideoStage (html : Chars) : JsVal :=
  match ogVideoMatch html with
  | some cap => .str cap
  | none => .str []

/-- The cascade locals after the Open Graph / author steps and the
structured-data scan over all JSON script blocks. -/
def stOf (html : Chars) : CascadeVars :=
  (scriptBlocks html).foldl jsonBlockStep
    { title := titleStage html, author := authorStage html,
      thumbnail := thumbStage html, videoUrl := ogVideoStage html }

/-- The audio-URL scan: quoted URLs with `.m4a`/`.mp3`/`.aac`, then the
`audioUrl`/`soundTrack` key patterns; the first match of the first successful
pattern wins (every loop breaks on its first match). -/
def audioScan (html : Chars) : Option Chars :=
  match searchPos (quotedUrlAt (extHas ".m4a".data)) html with
  | some (cap, _) => some cap
  | none =>
    match searchPos (quotedUrlAt (extHas ".mp3".data)) html with
    | some (cap, _) => some cap
    | none =>
      match searchPos (quotedUrlAt (extHas ".aac".data)) html with
      | some (cap, _) => some cap
      | none =>
        match keyCapture "audioUrl" html with
        | some cap => some cap
        | none => keyCapture "soundTrack" html

/-- The audio local as a JS value. -/
def audioStage (html : Chars) : JsVal :=
  match audioScan html with
  | some cap => .str cap
  | none => .str []

/-- The candidate filter of the video-URL fallback scan:
`foundUrl.includes(".mp4") && !foundUrl.includes("poster") &&
!foundUrl.includes("cover")` (case-sensitive `includes`). -/
def videoFilter (u : Chars) : Bool :=
  jsIncludes ".mp4".data u && !(jsIncludes "poster".data u) &&
    !(jsIncludes "cover".data u)

/-- Outcome of one pattern of the filtered fallback scan: a passing candidate,
no further matches, or divergence (the `while`/`exec` loop re-returning the
same rejected match forever). -/
inductive ScanOut where
  | found (cap : Chars)
  | exhausted
  | diverged

/-- Filtered scan of a global (`g`-flagged) pattern: `exec` advances past each
match, so rejected candidates are skipped and the scan terminates. -/
def scanGlobalFiltered (m : Chars → Option (Chars × Chars)) (html : Chars) :
    Option Chars :=
  (allMatches m html).find? videoFilter

/-- Filtered scan of a non-global pattern: `exec` ignores `lastIndex` and
returns the first match on every iteration, so a first match that fails the
filter makes the `while` loop run forever. -/
def scanSingleFiltered (m : Chars → Option Chars) (html : Chars) : ScanOut :=
  match searchPos m html with
  | none => .exhausted
  | some cap => if videoFilter cap then .found cap else .diverged

/-- The video-URL fallback scan over the five patterns in source order (the
first two are global, the three key patterns are not). -/
def videoFallbackScan (html : Chars) : ScanOut :=
  match scanGlobalFiltered (quotedUrlAt (extHas ".mp4".data)) html with
  | some cap => .found cap
  | none =>
    match scanGlobalFiltered (quotedUrlAt hasVideoMp4) html with
    | some cap => .found cap
    | none =>
      match scanSingleFiltered (keyAt "videoUrl".data) html with
      | .exhausted =>
        match scanSingleFiltered (keyAt "playUrl".data) html with
        | .exhausted => scanSingleFiltered (keyAt "srcNoMark".data) html
        | out => out
      | out => out

/-- The streaming-manifest fallback: quoted `.m3u8` URLs or the `hlsPlayUrl`
key pattern; both loops break on their first match. -/
def m3u8Scan (html : Chars) : Option Chars :=
  match searchPos (quotedUrlAt (extHas ".m3u8".data)) html with
  | some (cap, _) => some cap
  | none => keyCapture "hlsPlayUrl" html

/-- The thumbnail fallback: quoted image URLs with a `cover`/`poster`/`thumb`
keyword, or the `coverUrl`/`posterUrl` key patterns; every loop breaks on its
first match. -/
def imgScan (html : Chars) : Option Chars :=
  match searchPos (quotedUrlAt imgRunCheck) html with
  | some (cap, _) => some cap
  | none =>
    match keyCapture "coverUrl" html with
    | some cap => some cap
    | none => keyCapture "posterUrl" html

/-- Abnormal terminations of the cascade body: a thrown runtime type error
(calling `.replace` on a non-string), or non-termination. -/
inductive ExtErr where
  | thrown
  | hang

/-- The `if (!videoUrl)` guarded fallback scan; divergence of the scan is the
divergence of the whole call. -/
def fallbackStep (videoUrl : JsVal) (html : Chars) : Except ExtErr JsVal :=
  if truthy videoUrl then .ok videoUrl
  else
    match videoFallbackScan html with
    | .found cap => .ok (.str cap)
    | .exhausted => .ok videoUrl
    | .diverged => .error .hang

/-- The `if (!videoUrl)` guarded streaming-manifest fallback. -/
def m3u8Step (videoUrl : JsVal) (html : Chars) : JsVal :=
  if truthy videoUrl then videoUrl
  else
    match m3u8Scan html with
    | some cap => .str cap
    | none => videoUrl

/-- The `if (!thumbnail)` guarded thumbnail fallback. -/
def imgStep (thumbnail : JsVal) (html : Chars) : JsVal :=
  if truthy thumbnail then thumbnail
  else
    match imgScan html with
    | some cap => .str cap
    | none => thumbnail

/-- The URL unescaping `.replace(/\\u002F/g, "/").replace(/\\/g, "")`:
each literal `/` becomes `/`, then every remaining backslash is
removed. -/
def replaceSeqGo (pat rep : Chars) : Nat → Chars → Chars
  | 0, s => s
  | _ + 1, [] => []
  | n + 1, c :: cs =>
    if startsWithCS pat (c :: cs) then rep ++ replaceSeqGo pat rep n ((c :: cs).drop pat.length)
    else c :: replaceSeqGo pat rep n cs

/-- Left-to-right global replacement of a literal pattern. -/
def replaceSeq (pat rep s : Chars) : Chars := replaceSeqGo pat rep s.length s

/-- The unescaping applied to resolved URLs. -/
def unescapeUrl (s : Chars) : Chars :=
  (replaceSeq "\\u002F".data "/".data s).filter (fun c => c != '\\')

/-- The guarded unescape `if (v) v = v.replace(...)`: falsy values pass
through unchanged; a truthy non-string has no `.replace` method and throws a
TypeError. -/
def unescapeJs (v : JsVal) : Except ExtErr JsVal :=
  if truthy v then
    match v with
    | .str s => .ok (.str (unescapeUrl s))
    | _ => .error .thrown
  else .ok v

/-- The body of `extractVideoInfoFromHtml` inside its `try`: the cascade,
fallbacks, unescaping and the terminal rule, with thrown type errors and
divergence made explicit.  The `originalUrl` parameter is received but never
read, exactly as in the source. -/
def extractCore (html : Chars) (originalUrl : Chars) : Except ExtErr (Option VideoInfo) :=
  let st := stOf html
  let au := audioStage html
  match fallbackStep st.videoUrl html with
  | .error e => .error e
  | .ok v1 =>
    match unescapeJs (m3u8Step v1 html) with
    | .error e => .error e
    | .ok v3 =>
      match unescapeJs (imgStep st.thumbnail html) with
      | .error e => .error e
      | .ok th2 =>
        if truthy v3 then
          match unescapeJs au with
          | .error e => .error e
          | .ok au1 =>
            .ok (some
              { title := jsOr st.title (.str "Kuaishou Video".data),
                author := jsOr st.author (.str "Unknown".data),
                thumbnail := th2,
                videoUrl := v3,
                audioUrl := if truthy au1 then au1 else .undefined,
                quality := .str "720p".data,
                fileSize := .str [] })
        else .ok none

/-- Observable outcome of a call to the extraction function: a returned value
(`null` or a descriptor), or no return at all. -/
inductive ExtractOutcome where
  | result (r : Option VideoInfo)
  | diverge

/-- `extractVideoInfoFromHtml` with its surrounding `try`/`catch`: any thrown
error is caught and converted to `null`; divergence is not catchable. -/
def extractVideoInfoFromHtml (html : Chars) (originalUrl : Chars) : ExtractOutcome :=
  match extractCore html originalUrl with
  | .ok r => .result r
  | .error .thrown => .result none
  | .error .hang => .diverge

/-! ### The redirect-following fetcher (`fetchWithRedirects`) -/

/-- An HTTP response as observed by the redirect loop: the status, the
`location` header (`none` when absent) and the body text. -/
structure HttpResponse where
  status : Nat
  location : Option String
  body : String
  deriving DecidableEq

/-- Errors of the fetcher: a transport failure thrown by `fetch` itself
(propagating out of the loop), and the `"Failed to fetch URL"` error thrown
when the loop exits without a response. -/
inductive FetchErr where
  | network
  | noResponse
  deriving DecidableEq

/-- JavaScript `String.prototype.startsWith` on modelled strings. -/
def jsStartsWith (p : String) (s : String) : Bool := startsWithCS p.data s.data

/-- Modelled from the spec: relative resolution of a `Location` header value
against the current URL (the JS builtin `new URL(location, currentUrl).href`,
which is not part of this repository) — host-absolute locations are appended
to the origin, others to the directory of the current URL. -/
def resolveRelativeUrl (location currentUrl : String) : String :=
  if jsStartsWith "/" location then
    (match currentUrl.splitOn "/" with
     | scheme :: "" :: host :: _ => scheme ++ "//" ++ host
     | _ => currentUrl) ++ location
  else
    String.intercalate "/" (currentUrl.splitOn "/").dropLast ++ "/" ++ location

/-- Line 42 of the source: a location already carrying a scheme is used
as-is, anything else is resolved against the current URL. -/
def resolveLocation (location currentUrl : String) : String :=
  if jsStartsWith "http" location then location
  else resolveRelativeUrl location currentUrl

/-- The manual redirect loop: at most `fuel` fetches, hopping only on a 3xx
status with a non-empty `location` header, carrying the last obtained
response; the network oracle `f` returns `none` for a transport failure. -/
def redirectLoop (f : String → Option HttpResponse) :
    Nat → String → Option HttpResponse → Except FetchErr (Option HttpResponse)
  | 0, _, resp => .ok resp
  | n + 1, url, _ =>
    match f url with
    | none => .error .network
    | some r =>
      if 300 ≤ r.status ∧ r.status < 400 then
        match r.location with
        | some loc =>
          if loc = "" then .ok (some r)
          else redirectLoop f n (resolveLocation loc url) (some r)
        | none => .ok (some r)
      else .ok (some r)

/-- `fetchWithRedirects`: run the loop from a null response; a loop exit
without any response throws the `"Failed to fetch URL"` error. -/
def fetchWithRedirects (f : String → Option HttpResponse) (url : String)
    (maxRedirects : Nat := 5) : Except FetchErr HttpResponse :=
  match redirectLoop f maxRedirects url none with
  | .error e => .error e
  | .ok (some r) => .ok r
  | .ok none => .error .noResponse

/-! ### The streaming relay (`GET /api/download`) -/

/-- The upstream media response as observed by the relay: status, optional
`content-length` header, and the chunked body (`none` when `body` has no
reader). -/
structure UpstreamResponse where
  status : Nat
  contentLength : Option String
  chunks : Option (List (List Nat))
  deriving DecidableEq

/-- The response produced by the relay route handler: status, optional JSON
error body, the media headers when set, and the forwarded body chunks. -/
structure RelayReply where
  status : Nat
  errorJson : Option String
  contentType : Option String
  contentDisposition : Option String
  contentLength : Option String
  bytes : List (List Nat)
  deriving DecidableEq

/-- The `GET /api/download` handler over an upstream fetch oracle: validate
the `url` query parameter, derive kind-specific filename and content type,
fetch the media URL, report a non-ok upstream status unchanged with a JSON
error and no body bytes, and otherwise stream the chunks with the media
headers (propagating `content-length` only when present upstream). -/
def downloadHandler (f : String → UpstreamResponse) (url : Option String)
    (ty : Option String) : RelayReply :=
  match url with
  | none =>
    { status := 400, errorJson := some "Missing video URL", contentType := none,
      contentDisposition := none, contentLength := none, bytes := [] }
  | some u =>
    let downloadType := if ty = some "audio" then "audio" else "video"
    let filename :=
      if downloadType = "audio" then "kuaishou-audio.m4a" else "kuaishou-video.mp4"
    let contentType := if downloadType = "audio" then "audio/mp4" else "video/mp4"
    let r := f u
    if ¬(200 ≤ r.status ∧ r.status ≤ 299) then
      { status := r.status, errorJson := some "Failed to download file",
        contentType := none, contentDisposition := none, contentLength := none,
        bytes := [] }
    else
      match r.chunks with
      | none =>
        { status := 500, errorJson := some "Failed to read response body",
          contentType := some contentType,
          contentDisposition := some ("attachment; filename=" ++ "\"" ++ filename ++ "\""),
          contentLength := r.contentLength, bytes := [] }
      | some chunks =>
        { status := 200, errorJson := none, contentType := some contentType,
          contentDisposition := some ("attachment; filename=" ++ "\"" ++ filename ++ "\""),
          contentLength := r.contentLength, bytes := chunks }

/-! ### Lemmas about the redirect loop -/

/-- A loop started with a response in hand never ends with no response. -/
lemma redirectLoop_some_ne (f : String → Option HttpResponse) :
    ∀ (n : Nat) (url : String) (r : HttpResponse),
      redirectLoop f n url (some r) ≠ Except.ok none := by
  intro n
  induction n with
  | zero => intro url r h; exact Option.noConfusion (Except.ok.inj h)
  | succ m ih =>
    intro url r h
    simp only [redirectLoop] at h
    split at h
    · exact Except.noConfusion h
    · split at h
      · split at h
        · split at h
          · exact Option.noConfusion (Except.ok.inj h)
          · exact ih _ _ h
        · exact Option.noConfusion (Except.ok.inj h)
      · exact Option.noConfusion (Except.ok.inj h)

/-- The loop itself can only fail with a transport error. -/
lemma redirectLoop_ne_noResponse (f : String → Option HttpResponse) :
    ∀ (n : Nat) (url : String) (prev : Option HttpResponse),
      redirectLoop f n url prev ≠ Except.error FetchErr.noResponse := by
  intro n
  induction n with
  | zero => intro url prev h; exact Except.noConfusion h
  | succ m ih =>
    intro url prev h
    simp only [redirectLoop] at h
    split at h
    · exact FetchErr.noConfusion (Except.error.inj h)
    · split at h
      · split at h
        · split at h
          · exact Except.noConfusion h
          · exact ih _ _ h
        · exact Except.noConfusion h
      · exact Except.noConfusion h

/-- With at least one iteration available, the loop produces a response. -/
lemma redirectLoop_ne_none (f : String → Option HttpResponse) (n : Nat)
    (url : String) (prev : Option HttpResponse) (hn : 1 ≤ n) :
    redirectLoop f n url prev ≠ Except.ok none := by
  cases n with
  | zero => exact absurd hn (by decide)
  | succ m =>
    intro h
    simp only [redirectLoop] at h
    split at h
    · exact Except.noConfusion h
    · split at h
      · split at h
        · split at h
          · exact Option.noConfusion (Except.ok.inj h)
          · exact redirectLoop_some_ne f m _ _ h
        · exact Option.noConfusion (Except.ok.inj h)
      · exact Option.noConfusion (Except.ok.inj h)

/-- One redirect hop of the loop. -/
lemma redirectLoop_hop (f : String → Option HttpResponse) (n : Nat)
    (url : String) (prev : Option HttpResponse) (r : HttpResponse) (loc : String)
    (hf : f url = some r) (h3 : 300 ≤ r.status ∧ r.status < 400)
    (hl : r.location = some loc) (hne : loc ≠ "") :
    redirectLoop f (n + 1) url prev =
      redirectLoop f n (resolveLocation loc url) (some r) := by
  simp only [redirectLoop, hf]
  rw [if_pos h3]
  simp only [hl]
  rw [if_neg hne]

/-- A non-redirect response, or a redirect without a location, ends the loop
with that response. -/
lemma redirectLoop_final (f : String → Option HttpResponse) (n : Nat)
    (url : String) (prev : Option HttpResponse) (r : HttpResponse)
    (hf : f url = some r)
    (hs : ¬(300 ≤ r.status ∧ r.status < 400) ∨ r.location = none) :
    redirectLoop f (n + 1) url prev = Except.ok (some r) := by
  simp only [redirectLoop, hf]
  cases hs with
  | inl h => rw [if_neg h]
  | inr h =>
    by_cases h3 : 300 ≤ r.status ∧ r.status < 400
    · rw [if_pos h3]
      simp only [h]
    · rw [if_neg h3]

/-- An absolute location resolves to itself. -/
lemma resolveLocation_abs (loc url : String) (h : jsStartsWith "http" loc = true) :
    resolveLocation loc url = loc := by
  unfold resolveLocation
  rw [h]
  rfl

/-- A location starting with "http" is non-empty. -/
lemma startsWith_http_ne_empty (loc : String) (h : jsStartsWith "http" loc = true) :
    loc ≠ "" := by
  intro e
  rw [e] at h
  exact absurd h (by decide)

/-- Claim C3: the fetcher hops only on a 3xx status with a `Location` header
(resolving it against the current URL), returns every other response as final
(including a 3xx without `Location`), never errors out for exceeding the
bound, and truncates: a chain of three redirects ending in a 200 yields that
200 under the default bound of 5, and a chain of redirects longer than the
bound yields the response of the fifth fetch. -/
theorem fetchWithRedirects_behavior (f : String → Option HttpResponse) :
    (∀ url n r, 1 ≤ n → f url = some r →
       (¬(300 ≤ r.status ∧ r.status < 400) ∨ r.location = none) →
       fetchWithRedirects f url n = Except.ok r) ∧
    (∀ url n prev r loc, f url = some r → (300 ≤ r.status ∧ r.status < 400) →
       r.location = some loc → loc ≠ "" →
       redirectLoop f (n + 1) url prev =
         redirectLoop f n (resolveLocation loc url) (some r)) ∧
    (∀ u0 u1 u2 u3 r0 r1 r2 r3,
       f u0 = some r0 → (300 ≤ r0.status ∧ r0.status < 400) →
       r0.location = some u1 → jsStartsWith "http" u1 = true →
       f u1 = some r1 → (300 ≤ r1.status ∧ r1.status < 400) →
       r1.location = some u2 → jsStartsWith "http" u2 = true →
       f u2 = some r2 → (300 ≤ r2.status ∧ r2.status < 400) →
       r2.location = some u3 → jsStartsWith "http" u3 = true →
       f u3 = some r3 → r3.status = 200 →
       fetchWithRedirects f u0 5 = Except.ok r3) ∧
    (∀ u0 u1 u2 u3 u4 u5 r0 r1 r2 r3 r4,
       f u0 = some r0 → (300 ≤ r0.status ∧ r0.status < 400) →
       r0.location = some u1 → jsStartsWith "http" u1 = true →
       f u1 = some r1 → (300 ≤ r1.status ∧ r1.status < 400) →
       r1.location = some u2 → jsStartsWith "http" u2 = true →
       f u2 = some r2 → (300 ≤ r2.status ∧ r2.status < 400) →
       r2.location = some u3 → jsStartsWith "http" u3 = true →
       f u3 = some r3 → (300 ≤ r3.status ∧ r3.status < 400) →
       r3.location = some u4 → jsStartsWith "http" u4 = true →
       f u4 = some r4 → (300 ≤ r4.status ∧ r4.status < 400) →
       r4.location = some u5 → jsStartsWith "http" u5 = true →
       fetchWithRedirects f u0 5 = Except.ok r4) := by
  refine ⟨?_, ?_, ?_, ?_⟩
  · intro url n r hn hf hs
    cases n with
    | zero => exact absurd hn (by decide)
    | succ m =>
      unfold fetchWithRedirects
      rw [redirectLoop_final f m url none r hf hs]
  · intro url n prev r loc hf h3 hl hne
    exact redirectLoop_hop f n url prev r loc hf h3 hl hne
  · intro u0 u1 u2 u3 r0 r1 r2 r3 hf0 h30 hl0 ha0 hf1 h31 hl1 ha1 hf2 h32 hl2 ha2 hf3 hs3
    unfold fetchWithRedirects
    rw [redirectLoop_hop f 4 u0 none r0 u1 hf0 h30 hl0 (startsWith_http_ne_empty u1 ha0),
      resolveLocation_abs u1 u0 ha0,
      redirectLoop_hop f 3 u1 (some r0) r1 u2 hf1 h31 hl1 (startsWith_http_ne_empty u2 ha1),
      resolveLocation_abs u2 u1 ha1,
      redirectLoop_hop f 2 u2 (some r1) r2 u3 hf2 h32 hl2 (startsWith_http_ne_empty u3 ha2),
      resolveLocation_abs u3 u2 ha2,
      redirectLoop_final f 1 u3 (some r2) r3 hf3 (Or.inl (by rw [hs3]; decide))]
  · intro u0 u1 u2 u3 u4 u5 r0 r1 r2 r3 r4 hf0 h30 hl0 ha0 hf1 h31 hl1 ha1 hf2 h32 hl2
      ha2 hf3 h33 hl3 ha3 hf4 h34 hl4 ha4
    unfold fetchWithRedirects
    rw [redirectLoop_hop f 4 u0 none r0 u1 hf0 h30 hl0 (startsWith_http_ne_empty u1 ha0),
      resolveLocation_abs u1 u0 ha0,
      redirectLoop_hop f 3 u1 (some r0) r1 u2 hf1 h31 hl1 (startsWith_http_ne_empty u2 ha1),
      resolveLocation_abs u2 u1 ha1,
      redirectLoop_hop f 2 u2 (some r1) r2 u3 hf2 h32 hl2 (startsWith_http_ne_empty u3 ha2),
      resolveLocation_abs u3 u2 ha2,
      redirectLoop_hop f 1 u3 (some r2) r3 u4 hf3 h33 hl3 (startsWith_http_ne_empty u4 ha3),
      resolveLocation_abs u4 u3 ha3,
      redirectLoop_hop f 0 u4 (some r3) r4 u5 hf4 h34 hl4 (startsWith_http_ne_empty u5 ha4)]
    rfl

/-- A concrete three-redirect chain for the C3 witness. -/
def chainOracle : String → Option HttpResponse := fun u =>
  if u = "http://s.example/0" then
    some { status := 302, location := some "http://s.example/1", body := "" }
  else if u = "http://s.example/1" then
    some { status := 302, location := some "http://s.example/2", body := "" }
  else if u = "http://s.example/2" then
    some { status := 302, location := some "http://s.example/3", body := "" }
  else if u = "http://s.example/3" then
    some { status := 200, location := none, body := "final" }
  else none

theorem fetchWithRedirects_behavior_witness :
    fetchWithRedirects chainOracle "http://s.example/0" 5 =
      Except.ok { status := 200, location := none, body := "final" } :=
  (fetchWithRedirects_behavior chainOracle).2.2.1
    "http://s.example/0" "http://s.example/1" "http://s.example/2" "http://s.example/3"
    { status := 302, location := some "http://s.example/1", body := "" }
    { status := 302, location := some "http://s.example/2", body := "" }
    { status := 302, location := some "http://s.example/3", body := "" }
    { status := 200, location := none, body := "final" }
    rfl (by decide) rfl (by decide)
    rfl (by decide) rfl (by decide)
    rfl (by decide) rfl (by decide)
    rfl rfl

/-- Claim C8: for any oracle and any bound of at least one, the fetcher never
raises the `"Failed to fetch URL"` (no-response) error: the loop always
obtains a response (or propagates a transport error instead). -/
theorem redirect_loop_always_obtains_response (f : String → Option HttpResponse)
    (url : String) (n : Nat) (hn : 1 ≤ n) :
    fetchWithRedirects f url n ≠ Except.error FetchErr.noResponse := by
  unfold fetchWithRedirects
  intro h
  cases hr : redirectLoop f n url none with
  | error e =>
    rw [hr] at h
    cases e with
    | network => simp at h
    | noResponse => exact redirectLoop_ne_noResponse f n url none hr
  | ok o =>
    rw [hr] at h
    cases o with
    | some r => simp at h
    | none => exact redirectLoop_ne_none f n url none hn hr

/-- A single-response oracle for the C8 witness. -/
def okOracle : String → Option HttpResponse := fun _ =>
  some { status := 200, location := none, body := "done" }

theorem redirect_loop_always_obtains_response_witness :
    1 ≤ 1 ∧ fetchWithRedirects okOracle "http://a.example" 1 ≠ Except.error FetchErr.noResponse :=
  ⟨by decide, redirect_loop_always_obtains_response okOracle "http://a.example" 1 (by decide)⟩

/-- Claim C7: a non-success upstream status is reported to the caller with
the same status code, a JSON error body, and no forwarded body bytes. -/
theorem relay_propagates_upstream_status (f : String → UpstreamResponse)
    (u : String) (ty : Option String)
    (h : ¬(200 ≤ (f u).status ∧ (f u).status ≤ 299)) :
    downloadHandler f (some u) ty =
      { status := (f u).status, errorJson := some "Failed to download file",
        contentType := none, contentDisposition := none, contentLength := none,
        bytes := [] } := by
  simp only [downloadHandler]
  rw [if_pos h]

/-- A 404 upstream for the C7 witness. -/
def upstream404 : String → UpstreamResponse := fun _ =>
  { status := 404, contentLength := none, chunks := none }

theorem relay_propagates_upstream_status_witness :
    downloadHandler upstream404 (some "http://m.example/v.mp4") none =
      { status := 404, errorJson := some "Failed to download file", contentType := none,
        contentDisposition := none, contentLength := none, bytes := [] } :=
  relay_propagates_upstream_status upstream404 "http://m.example/v.mp4" none (by decide)

/-! ### Lemmas about the extraction cascade -/

/-- Inversion of a successful extraction: the returned descriptor is exactly
the record built from the cascade state, the fallback results and the
unescaping steps, with the videoUrl truthy. -/
lemma extract_result_some (html u : Chars) (d : VideoInfo)
    (hx : extractVideoInfoFromHtml html u = .result (some d)) :
    ∃ v1 v3 th2 au1,
      fallbackStep (stOf html).videoUrl html = .ok v1 ∧
      unescapeJs (m3u8Step v1 html) = .ok v3 ∧
      unescapeJs (imgStep (stOf html).thumbnail html) = .ok th2 ∧
      truthy v3 = true ∧
      unescapeJs (audioStage html) = .ok au1 ∧
      d.title = jsOr (stOf html).title (.str "Kuaishou Video".data) ∧
      d.author = jsOr (stOf html).author (.str "Unknown".data) ∧
      d.thumbnail = th2 ∧ d.videoUrl = v3 ∧
      d.audioUrl = (if truthy au1 then au1 else JsVal.undefined) ∧
      d.quality = .str "720p".data ∧ d.fileSize = .str [] := by
  unfold extractVideoInfoFromHtml at hx
  split at hx
  · rename_i r hc
    simp only [ExtractOutcome.result.injEq] at hx
    subst hx
    simp only [extractCore] at hc
    split at hc
    · exact Except.noConfusion hc
    · rename_i v1 h1
      split at hc
      · exact Except.noConfusion hc
      · rename_i v3 h2
        split at hc
        · exact Except.noConfusion hc
        · rename_i th2 h3
          split at hc
          · rename_i h4
            split at hc
            · exact Except.noConfusion hc
            · rename_i au1 h5
              injection hc with h6
              injection h6 with h7
              subst h7
              exact ⟨v1, v3, th2, au1, h1, h2, h3, h4, h5,
                rfl, rfl, rfl, rfl, rfl, rfl, rfl⟩
          · rename_i h4
            exact Option.noConfusion (Except.ok.inj hc)
  · exact Option.noConfusion (ExtractOutcome.result.inj hx)
  · exact ExtractOutcome.noConfusion hx

/-- A guarded fill leaves a truthy field unchanged. -/
lemma fillField_truthy (cur cand : JsVal) (h : truthy cur = true) :
    fillField cur cand = cur := by
  unfold fillField jsOr
  rw [h]
  split <;> rfl

/-- One structured-data step leaves a truthy title unchanged. -/
lemma jsonBlockStep_title_eq (st : CascadeVars) (b : Chars)
    (h : truthy st.title = true) : (jsonBlockStep st b).title = st.title := by
  unfold jsonBlockStep
  split
  · rfl
  · exact fillField_truthy st.title _ h

/-- The whole structured-data scan leaves a truthy title unchanged. -/
lemma foldl_jsonBlockStep_title (bs : List Chars) (st : CascadeVars)
    (h : truthy st.title = true) :
    (bs.foldl jsonBlockStep st).title = st.title := by
  induction bs generalizing st with
  | nil => rfl
  | cons b rest ih =>
    have ht : (jsonBlockStep st b).title = st.title := jsonBlockStep_title_eq st b h
    rw [List.foldl_cons, ih (jsonBlockStep st b) (by rw [ht]; exact h), ht]

/-- A truthy value coming out of the guarded unescape is an unescaped
string. -/
lemma unescapeJs_ok_truthy (v w : JsVal) (h : unescapeJs v = .ok w)
    (ht : truthy w = true) : ∃ raw, w = .str (unescapeUrl raw) := by
  unfold unescapeJs at h
  split at h
  · rename_i hv
    cases v with
    | str s => exact ⟨s, (Except.ok.inj h).symm⟩
    | num n => exact Except.noConfusion h
    | bool b => exact Except.noConfusion h
    | null => exact Except.noConfusion h
    | undefined => exact Except.noConfusion h
    | arr xs => exact Except.noConfusion h
    | obj fs => exact Except.noConfusion h
  · rename_i hv
    have := Except.ok.inj h
    subst this
    exact absurd ht hv

/-! ### The claims about the extraction cascade -/

/-- The input on which the video-URL fallback scan spins forever: no Open
Graph video, no quoted `.mp4` URL, and a `playUrl` key whose first (and only)
match is an `.m3u8` URL, which fails the `.mp4` filter; the `playUrl` regex
has no `g` flag, so `exec` returns the same rejected match on every
iteration of the `while` loop. -/
def hangHtml : Chars := ("playUrl:\"https://h.example.com/stream.m3u8\"").data

/-- Claim C1 (code bug): extraction does not always return: on `hangHtml` the
call diverges instead of returning `NotFound` or a descriptor. -/
theorem nonglobal_fallback_scan_diverges :
    extractVideoInfoFromHtml hangHtml "https://orig.example".data = .diverge := rfl

/-- A script block whose embedded JSON has a truthy non-string `contentUrl`,
making the later `videoUrl.replace` call throw a TypeError. -/
def c2html : Chars :=
  ("<script type=\"application/json\">\x7b\"contentUrl\":5\x7d</script>").data

/-- A non-JSON block body for the parse-failure part of the C2 witness. -/
def c2bad : Chars := "not json".data

/-- An all-empty cascade state for the C2 witness. -/
def c2st : CascadeVars :=
  { title := .str [], author := .str [], thumbnail := .str [], videoUrl := .str [] }

/-- Claim C2: extraction never raises — a thrown error inside the body is
caught and resolved to `NotFound` (`null`), and a `JSON.parse` failure on one
embedded script block is swallowed locally, leaving the cascade state
unchanged so that scanning continues with the remaining blocks. -/
theorem extract_swallows_failures :
    (∀ html u, extractCore html u = .error .thrown →
       extractVideoInfoFromHtml html u = .result none) ∧
    (∀ (st : CascadeVars) (b : Chars) (rest : List Chars), jsonParse b = none →
       List.foldl jsonBlockStep st (b :: rest) = List.foldl jsonBlockStep st rest) := by
  constructor
  · intro html u h
    unfold extractVideoInfoFromHtml
    rw [h]
  · intro st b rest h
    have hb : jsonBlockStep st b = st := by
      unfold jsonBlockStep
      rw [h]
    rw [List.foldl_cons, hb]

theorem extract_swallows_failures_witness :
    extractCore c2html "https://u.example".data = .error .thrown ∧
    extractVideoInfoFromHtml c2html "https://u.example".data = .result none ∧
    jsonParse c2bad = none ∧
    List.foldl jsonBlockStep c2st (c2bad :: []) = List.foldl jsonBlockStep c2st [] :=
  ⟨rfl, extract_swallows_failures.1 c2html "https://u.example".data rfl,
    rfl, extract_swallows_failures.2 c2st c2bad [] rfl⟩

/-- Claim C4: an `og:title` value always overrides the bare `<title>` value —
whenever the Open Graph title matcher finds a value with non-empty trim, the
returned descriptor's title is exactly that trimmed value, whatever the
`<title>` tag contained. -/
theorem og_title_overrides_title (html u a : Chars) (d : VideoInfo)
    (hog : ogTitleMatch html = some a) (hne : jsTrim a ≠ [])
    (hx : extractVideoInfoFromHtml html u = .result (some d)) :
    d.title = .str (jsTrim a) := by
  obtain ⟨v1, v3, th2, au1, h1, h2, h3, h4, h5, hT, hA, hTh, hV, hAu, hQ, hF⟩ :=
    extract_result_some html u d hx
  have hts : titleStage html = .str (jsTrim a) := by
    unfold titleStage
    rw [hog]
  have htr : truthy (JsVal.str (jsTrim a)) = true := by
    show (!(jsTrim a).isEmpty) = true
    cases hjt : (jsTrim a).isEmpty with
    | false => rfl
    | true => exact absurd (List.isEmpty_iff.mp hjt) hne
  have hst : (stOf html).title = .str (jsTrim a) := by
    unfold stOf
    rw [foldl_jsonBlockStep_title]
    · rw [hts]
    · rw [hts]
      exact htr
  rw [hT, hst]
  unfold jsOr
  rw [if_pos htr]

/-- The C4 witness page carries both a `<title>` and an `og:title` (plus an
`og:video` so that extraction succeeds). -/
def w4html : Chars :=
  ("<title>B - 快手</title><meta property=\"og:title\" content=\"A\">" ++
    "<meta property=\"og:video\" content=\"http://v.cc/a.mp4\">").data

/-- The descriptor extraction returns on `w4html`. -/
def w4desc : VideoInfo :=
  { title := .str "A".data, author := .str "Unknown".data, thumbnail := .str [],
    videoUrl := .str "http://v.cc/a.mp4".data, audioUrl := .undefined,
    quality := .str "720p".data, fileSize := .str [] }

theorem og_title_overrides_title_witness :
    ogTitleMatch w4html = some "A".data ∧
    extractVideoInfoFromHtml w4html "https://u.example".data = .result (some w4desc) ∧
    w4desc.title = .str (jsTrim "A".data) :=
  ⟨rfl, rfl,
    og_title_overrides_title w4html "https://u.example".data "A".data w4desc rfl
      (by decide) rfl⟩

/-- The C5 counterexample page: an `og:video` tag whose quoted URL contains
`cover`. -/
def c5html : Chars :=
  ("<meta property=\"og:video\" content=\"https://cdn.example.com/cover_123.mp4\">").data

/-- The descriptor extraction returns on `c5html`: the cover URL is selected
as the video URL. -/
def c5desc : VideoInfo :=
  { title := .str "Kuaishou Video".data, author := .str "Unknown".data,
    thumbnail := .str [],
    videoUrl := .str "https://cdn.example.com/cover_123.mp4".data,
    audioUrl := .undefined, quality := .str "720p".data, fileSize := .str [] }

/-- Claim C5 counterexample: a quoted URL containing `cover` is selected as
the descriptor's videoUrl when it arrives through the `og:video` tag — the
cover/poster filter applies only to the fallback scan. -/
theorem cover_url_selected_via_og_video :
    extractVideoInfoFromHtml c5html "https://u.example".data = .result (some c5desc) ∧
    jsIncludes "cover".data "https://cdn.example.com/cover_123.mp4".data = true :=
  ⟨rfl, rfl⟩

/-- A filtered global scan only yields candidates passing the filter. -/
lemma scanGlobalFiltered_passes (m : Chars → Option (Chars × Chars))
    (html cap : Chars) (h : scanGlobalFiltered m html = some cap) :
    videoFilter cap = true :=
  List.find?_some h

/-- A filtered single scan only yields candidates passing the filter. -/
lemma scanSingleFiltered_passes (m : Chars → Option Chars) (html cap : Chars)
    (h : scanSingleFiltered m html = .found cap) : videoFilter cap = true := by
  unfold scanSingleFiltered at h
  split at h
  · exact ScanOut.noConfusion h
  · split at h
    · rename_i hv
      rw [ScanOut.found.inj h] at hv
      exact hv
    · exact ScanOut.noConfusion h

/-- Claim C5 as amended: every candidate the video-URL fallback scan settles
on passes the filter — it contains `.mp4` and contains neither `poster` nor
`cover`; candidates containing those substrings are never selected by the
fallback scan (though they may still become videoUrl through `og:video`,
structured-data `contentUrl`, or the m3u8 fallback, which are unfiltered). -/
theorem fallback_scan_rejects_cover_poster (html v : Chars)
    (h : videoFallbackScan html = .found v) :
    jsIncludes ".mp4".data v = true ∧ jsIncludes "poster".data v = false ∧
      jsIncludes "cover".data v = false := by
  have hf : videoFilter v = true := by
    unfold videoFallbackScan at h
    split at h
    · rename_i hg
      exact ScanOut.found.inj h ▸ scanGlobalFiltered_passes _ html _ hg
    · split at h
      · rename_i hg
        exact ScanOut.found.inj h ▸ scanGlobalFiltered_passes _ html _ hg
      · split at h
        · split at h
          · exact scanSingleFiltered_passes _ html v h
          · exact scanSingleFiltered_passes _ html v h
        · exact scanSingleFiltered_passes _ html v h
  unfold videoFilter at hf
  simp only [Bool.and_eq_true, Bool.not_eq_true'] at hf
  exact ⟨hf.1.1, hf.1.2, hf.2⟩

/-- A page on which the fallback scan does select a URL. -/
def w5html : Chars := ("x=\"https://cdn.example.com/video1.mp4\"").data

theorem fallback_scan_rejects_cover_poster_witness :
    videoFallbackScan w5html = .found "https://cdn.example.com/video1.mp4".data ∧
    (jsIncludes ".mp4".data "https://cdn.example.com/video1.mp4".data = true ∧
      jsIncludes "poster".data "https://cdn.example.com/video1.mp4".data = false ∧
      jsIncludes "cover".data "https://cdn.example.com/video1.mp4".data = false) :=
  ⟨rfl, fallback_scan_rejects_cover_poster w5html _ rfl⟩

/-- The C6 example page: a `videoUrl` key whose value escapes its slashes. -/
def ex6html : Chars := ("videoUrl:\"https:\\/\\/cdn.example.com\\/v.mp4\"").data

/-- The descriptor extraction returns on `ex6html`. -/
def ex6desc : VideoInfo :=
  { title := .str "Kuaishou Video".data, author := .str "Unknown".data,
    thumbnail := .str [], videoUrl := .str "https://cdn.example.com/v.mp4".data,
    audioUrl := .undefined, quality := .str "720p".data, fileSize := .str [] }

/-- Claim C6: every videoUrl in a returned descriptor is the unescaped form
of some raw matched value, and so are the thumbnail and the audioUrl whenever
they are non-empty; in particular the matched literal
`https:\/\/cdn.example.com\/v.mp4` yields `https://cdn.example.com/v.mp4`. -/
theorem returned_urls_are_unescaped :
    (∀ html u d, extractVideoInfoFromHtml html u = .result (some d) →
       (∃ raw, d.videoUrl = .str (unescapeUrl raw)) ∧
       (truthy d.thumbnail = true → ∃ raw, d.thumbnail = .str (unescapeUrl raw)) ∧
       (truthy d.audioUrl = true → ∃ raw, d.audioUrl = .str (unescapeUrl raw))) ∧
    extractVideoInfoFromHtml ex6html "https://u.example".data = .result (some ex6desc) ∧
    ex6desc.videoUrl = .str "https://cdn.example.com/v.mp4".data := by
  refine ⟨?_, rfl, rfl⟩
  intro html u d hx
  obtain ⟨v1, v3, th2, au1, h1, h2, h3, h4, h5, hT, hA, hTh, hV, hAu, hQ, hF⟩ :=
    extract_result_some html u d hx
  refine ⟨?_, ?_, ?_⟩
  · rw [hV]
    exact unescapeJs_ok_truthy _ v3 h2 h4
  · intro ht
    rw [hTh] at ht ⊢
    exact unescapeJs_ok_truthy _ th2 h3 ht
  · intro ht
    rw [hAu] at ht ⊢
    by_cases hau : truthy au1 = true
    · rw [if_pos hau] at ht ⊢
      exact unescapeJs_ok_truthy _ au1 h5 ht
    · rw [if_neg hau] at ht
      exact absurd ht (by decide)

theorem returned_urls_are_unescaped_witness :
    extractVideoInfoFromHtml ex6html "https://u.example".data = .result (some ex6desc) ∧
    (∃ raw, ex6desc.videoUrl = .str (unescapeUrl raw)) :=
  ⟨rfl, (returned_urls_are_unescaped.1 ex6html "https://u.example".data ex6desc rfl).1⟩

/-- Claim C9: extraction is deterministic — identical inputs produce
identical outcomes (the regex state is recreated on every invocation, so no
state leaks between runs). -/
theorem extraction_deterministic (h1 h2 u1 u2 : Chars) (e1 : h1 = h2)
    (e2 : u1 = u2) :
    extractVideoInfoFromHtml h1 u1 = extractVideoInfoFromHtml h2 u2 := by
  rw [e1, e2]

theorem extraction_deterministic_witness :
    extractVideoInfoFromHtml "<x>".data "https://u.example".data =
      extractVideoInfoFromHtml "<x>".data "https://u.example".data :=
  extraction_deterministic _ _ _ _ rfl rfl

/-- Claim C10: the extraction result does not depend on the `originalUrl`
argument at all. -/
theorem extraction_ignores_original_url (html u1 u2 : Chars) :
    extractVideoInfoFromHtml html u1 = extractVideoInfoFromHtml html u2 := rfl

end Kuaishou
